import Mathlib

/-!
Shallow embedding of the ta_learning repository's core:

* `multi_tf_filter` (src/core/methods/multi_mean_reversion.py): the
  cross-timeframe position engine.  Prices are modelled as rationals,
  timestamps as naturals, pandas NaN-propagating comparisons as `Option`
  with the pandas convention that any comparison against NaN is `false`.
* `backtest_signals` (src/core/backtest.py): the equity curve builder.
* `trend_analyze` and `sma` (src/core/methods/multi_mean_reversion.py,
  src/core/indicators/moving_averages.py): the daily trend classifier.

Series are lists of rows in index order; alignment of an hourly series
onto the intraday index (`reindex(..., method="ffill")` on a sorted
index) is the last hourly value whose timestamp is at most the intraday
bar's timestamp.
-/

namespace TaLearning

/-- Hourly zone label, the values of the `zone` column produced by
`zone_analyze` (`np.select` with default `"neutral"`). -/
inductive Zone where
  | oversold
  | overbought
  | neutral
deriving DecidableEq

/-- One intraday (15-minute) bar as consumed by `multi_tf_filter`:
timestamp, Close price, the raw trigger signal and the trigger's reason
string. -/
structure M15Row where
  time : ℕ
  close : ℚ
  signal : ℤ
  reason : String
deriving DecidableEq

/-- One hourly bar as consumed by `multi_tf_filter`: timestamp, zone
label and the value of the first `SMA_*` column (the hourly reference
level; we model the `hr_sma_cols` nonempty branch — an empty hourly list
reproduces the behaviour where no reference is available, since every
aligned lookup is then NaN). -/
structure HourRow where
  time : ℕ
  zone : Zone
  sma : ℚ
deriving DecidableEq

/-- One daily bar (timestamp, Close, trend label).  `multi_tf_filter`
receives the daily frame as an argument but its body never reads it. -/
structure DailyRow where
  time : ℕ
  close : ℚ
  trend : ℤ
deriving DecidableEq

/-- Default intraday row used for out-of-range index reads. -/
def defM15 : M15Row := ⟨0, 0, 0, ""⟩

/-- Raw signal of bar `t` (`m15_df["signal"]`), 0 out of range. -/
def sigAt (m : List M15Row) (t : ℕ) : ℤ := (m.getD t defM15).signal

/-- Close of bar `t` (`m15_df["Close"]`), 0 out of range. -/
def closeAt (m : List M15Row) (t : ℕ) : ℚ := (m.getD t defM15).close

/-- Timestamp of bar `t` (`m15_df.index[t]`), 0 out of range. -/
def timeAt (m : List M15Row) (t : ℕ) : ℕ := (m.getD t defM15).time

/-- Reason string of bar `t` (`m15_df["reason"]`), empty out of range. -/
def reasonAt (m : List M15Row) (t : ℕ) : String := (m.getD t defM15).reason

/-- Last-known-value-as-of lookup: the zone of the last hourly row whose
timestamp is `≤ t` (`hourly_df["zone"].reindex(m15_df.index,
method="ffill")` on a sorted hourly index); `none` models the NaN before
the first hourly observation. -/
def asofZone (h : List HourRow) (t : ℕ) : Option Zone :=
  ((h.filter (fun r => r.time ≤ t)).getLast?).map (·.zone)

/-- Last-known-value-as-of lookup for the hourly reference level
(`hourly_df[hr_sma_cols[0]].reindex(m15_df.index, method="ffill")`). -/
def asofSma (h : List HourRow) (t : ℕ) : Option ℚ :=
  ((h.filter (fun r => r.time ≤ t)).getLast?).map (·.sma)

/-- Entry-signal column:
`((signal != signal.shift(1)) & (signal != 0)).astype(int) * signal`.
At `t = 0` the shifted value is NaN, and `signal != NaN` is true. -/
def entrySignal (m : List M15Row) (t : ℕ) : ℤ :=
  if (t = 0 ∨ sigAt m (t - 1) ≠ sigAt m t) ∧ sigAt m t ≠ 0 then sigAt m t else 0

/-- Entry-price column:
`m15_df["Close"].where(m15_df["entry_signal"] != 0).ffill()` — the Close
of the most recent bar (at or before `t`) carrying a nonzero entry
signal, NaN (`none`) if there has been none. -/
def entryPrice (m : List M15Row) : ℕ → Option ℚ
  | 0 => if entrySignal m 0 ≠ 0 then some (closeAt m 0) else none
  | t + 1 =>
      if entrySignal m (t + 1) ≠ 0 then some (closeAt m (t + 1))
      else entryPrice m t

/-- Previous bar's signal, `m15_df["signal"].shift(1)`; `none` is the
NaN in row 0. -/
def prevSig (m : List M15Row) (t : ℕ) : Option ℤ :=
  if t = 0 then none else some (sigAt m (t - 1))

/-- Reason string written on exit bars. -/
def exitReasonStr : String := "Exit at hourly SMA or ±2% target"

/-- Exit mask per bar:
`exit_bb_long | exit_profit_long | exit_bb_short | exit_profit_short`,
each comparison against a NaN operand being false. -/
def exitMask (m : List M15Row) (h : List HourRow) (t : ℕ) : Bool :=
  let c := closeAt m t
  let ref := asofSma h (timeAt m t)
  let ep := entryPrice m t
  (decide (prevSig m t = some 1) &&
     ((match ref with | some r => decide (c ≥ r) | none => false) ||
      (match ep with | some p => decide (c ≥ p * (102 / 100)) | none => false))) ||
  (decide (prevSig m t = some (-1)) &&
     ((match ref with | some r => decide (c ≤ r) | none => false) ||
      (match ep with | some p => decide (c ≤ p * (98 / 100)) | none => false)))

/-- Signal column after `m15_df.loc[exit_mask, "signal"] = 0`. -/
def signal1 (m : List M15Row) (h : List HourRow) (t : ℕ) : ℤ :=
  if exitMask m h t then 0 else sigAt m t

/-- Reason column after `m15_df.loc[exit_mask, "reason"] = ...`. -/
def reason1 (m : List M15Row) (h : List HourRow) (t : ℕ) : String :=
  if exitMask m h t then exitReasonStr else reasonAt m t

/-- Validity mask based solely on the aligned hourly zone:
`(signal == 1) & (zone == "oversold") | (signal == -1) & (zone ==
"overbought")`, evaluated on the post-exit signal. -/
def validMask (m : List M15Row) (h : List HourRow) (t : ℕ) : Bool :=
  (decide (signal1 m h t = 1) &&
     decide (asofZone h (timeAt m t) = some Zone.oversold)) ||
  (decide (signal1 m h t = -1) &&
     decide (asofZone h (timeAt m t) = some Zone.overbought))

/-- Signal column after `m15_df.loc[~valid_mask, "signal"] = 0`. -/
def signal2 (m : List M15Row) (h : List HourRow) (t : ℕ) : ℤ :=
  if validMask m h t then signal1 m h t else 0

/-- Reason column after `m15_df.loc[~valid_mask, "reason"] = ""`. -/
def reason2 (m : List M15Row) (h : List HourRow) (t : ℕ) : String :=
  if validMask m h t then reason1 m h t else ""

/-- Double-down (scale-in) column: `2` where
`(signal == 1) & (Close < entry_price * (1 - threshold)) & (entry_signal
== 0)` with `threshold = 0.01`, `-2` symmetrically for shorts, else 0;
evaluated on the post-filter signal and the unchanged entry price. -/
def doubleDown (m : List M15Row) (h : List HourRow) (t : ℕ) : ℤ :=
  if (decide (signal2 m h t = 1) &&
        (match entryPrice m t with
         | some p => decide (closeAt m t < p * (99 / 100))
         | none => false) &&
        decide (entrySignal m t = 0)) then 2
  else if (decide (signal2 m h t = -1) &&
        (match entryPrice m t with
         | some p => decide (closeAt m t > p * (101 / 100))
         | none => false) &&
        decide (entrySignal m t = 0)) then -2
  else 0

/-- One output row of `multi_tf_filter`: the intraday bar augmented with
the final signal, reason, entry-signal, entry-price and double-down
columns. -/
structure M15Out where
  time : ℕ
  close : ℚ
  signal : ℤ
  reason : String
  entrySignal : ℤ
  entryPrice : Option ℚ
  doubleDown : ℤ
deriving DecidableEq

/-- Default output row used for out-of-range index reads. -/
def defOut : M15Out := ⟨0, 0, 0, "", 0, none, 0⟩

/-- The output row of `multi_tf_filter` at index `t`. -/
def mtfRow (m : List M15Row) (h : List HourRow) (t : ℕ) : M15Out :=
  { time := timeAt m t
    close := closeAt m t
    signal := signal2 m h t
    reason := reason2 m h t
    entrySignal := entrySignal m t
    entryPrice := entryPrice m t
    doubleDown := doubleDown m h t }

/-- The cross-timeframe position engine
(`multi_tf_filter(m15_df, hourly_df, daily_df)` in
src/core/methods/multi_mean_reversion.py).  The daily frame is a
parameter the body never reads, exactly as in the source. -/
def multi_tf_filter (m : List M15Row) (h : List HourRow)
    (daily : List DailyRow) : List M15Out :=
  (List.range m.length).map (mtfRow m h)

/-- Output row at index `t`, default out of range. -/
def outAt (m : List M15Row) (h : List HourRow) (daily : List DailyRow)
    (t : ℕ) : M15Out :=
  (multi_tf_filter m h daily).getD t defOut

/-- Caller's intraday frame after the call: the source assigns all new
columns and the signal/reason overwrites on `m15_df` itself and returns
that same object, so after the call the caller's variable holds the
function's output. -/
def m15_after_filter (m : List M15Row) (h : List HourRow)
    (daily : List DailyRow) : List M15Out :=
  multi_tf_filter m h daily

/-- One row as consumed by `backtest_signals`
(src/core/backtest.py): Close, final signal, entry-signal
(`df.get("entry_signal", 0)`) and double-down (`df.get("double_down",
0)`). -/
structure BtRow where
  close : ℚ
  signal : ℤ
  entry : ℤ
  dd : ℤ
deriving DecidableEq

/-- Default backtest row for out-of-range index reads. -/
def defBt : BtRow := ⟨0, 0, 0, 0⟩

/-- Final signal of backtest row `t`, 0 out of range. -/
def sigB (rows : List BtRow) (t : ℕ) : ℤ := (rows.getD t defBt).signal

/-- Entry-signal of backtest row `t`, 0 out of range. -/
def entB (rows : List BtRow) (t : ℕ) : ℤ := (rows.getD t defBt).entry

/-- Double-down value of backtest row `t`, 0 out of range. -/
def ddB (rows : List BtRow) (t : ℕ) : ℤ := (rows.getD t defBt).dd

/-- Close of backtest row `t`, 0 out of range. -/
def closeB (rows : List BtRow) (t : ℕ) : ℚ := (rows.getD t defBt).close

/-- One step of the position loop in `backtest_signals`:
`if sig == 0: pos = 0; elif ent != 0: pos = ent; elif ddown != 0:
pos = ddown; else: pos = prev_pos`. -/
def posStep (prev : ℤ) (r : BtRow) : ℤ :=
  if r.signal = 0 then 0
  else if r.entry ≠ 0 then r.entry
  else if r.dd ≠ 0 then r.dd
  else prev

/-- The position loop of `backtest_signals`, carrying `prev_pos`. -/
def positionList (prev : ℤ) : List BtRow → List ℤ
  | [] => []
  | r :: rs =>
      let p := posStep prev r
      p :: positionList p rs

/-- The dynamic position series of `backtest_signals`
(`prev_pos = 0` initially). -/
def position (rows : List BtRow) : List ℤ := positionList 0 rows

/-- Position at index `t`, 0 out of range. -/
def posAt (rows : List BtRow) (t : ℕ) : ℤ := (position rows).getD t 0

/-- Per-bar simple price return,
`df["Close"].pct_change().fillna(0.0)`. -/
def pctRet (rows : List BtRow) : ℕ → ℚ
  | 0 => 0
  | t + 1 => closeB rows (t + 1) / closeB rows t - 1

/-- Strategy return per bar,
`pct_ret * position.shift(1).fillna(0)`. -/
def stratRet (rows : List BtRow) (t : ℕ) : ℚ :=
  pctRet rows t * (if t = 0 then 0 else (posAt rows (t - 1) : ℚ))

/-- Equity value at index `t`,
`(1 + strat_ret).cumprod() * initial_capital`. -/
def equity (rows : List BtRow) (cap : ℚ) : ℕ → ℚ
  | 0 => (1 + stratRet rows 0) * cap
  | t + 1 => equity rows cap t * (1 + stratRet rows (t + 1))

/-- The equity curve returned by `backtest_signals` (the input is
assumed already index-sorted, as produced by the pipeline; the source
first sorts a copy). -/
def backtest_signals (rows : List BtRow) (cap : ℚ) : List ℚ :=
  (List.range rows.length).map (equity rows cap)

/-- Caller's frame after `backtest_signals`: the source works on
`df.sort_index().copy()`, so the caller's rows are untouched. -/
def backtest_input_after (rows : List BtRow) : List BtRow := rows

/-- Projection of an engine output row onto the columns `backtest_signals`
reads (`Close`, `signal`, `entry_signal`, `double_down`). -/
def toBt (o : M15Out) : BtRow := ⟨o.close, o.signal, o.entrySignal, o.doubleDown⟩

/-- Re-reading an engine output row as a fresh engine input (the second
pass of the idempotence property feeds the output frame, whose `signal`
and `reason` columns are the filtered ones, back in). -/
def toInput (o : M15Out) : M15Row := ⟨o.time, o.close, o.signal, o.reason⟩

/-- Rolling mean of the Close column with `min_periods=1`
(`df["Close"].rolling(window=w, min_periods=1).mean()` in
src/core/indicators/moving_averages.py): the arithmetic mean of the most
recent `min(w, t+1)` closes. -/
def smaAt (closes : List ℚ) (w : ℕ) (t : ℕ) : ℚ :=
  let win := (closes.take (t + 1)).drop (t + 1 - w)
  win.sum / win.length

/-- Trend label of daily bar `t`
(`(df["Close"] > df[sma_col]).astype(int).replace({0: -1})`). -/
def trendAt (closes : List ℚ) (w : ℕ) (t : ℕ) : ℤ :=
  if closes.getD t 0 > smaAt closes w t then 1 else -1

/-- The daily trend classifier `trend_analyze` (its `trend` column). -/
def trend_analyze (closes : List ℚ) (w : ℕ) : List ℤ :=
  (List.range closes.length).map (trendAt closes w)

/-- Modelled from the spec: the equity curve builder's effective
multiplier as the specification words it — "the entry-event value if
nonzero, else the scale-in value if nonzero, else the previous bar's
effective multiplier, else 0" — i.e. without the builder's leading
`signal == 0` test.  Used only to compare the specified precedence with
the implemented one. -/
def specMultStep (prev : ℤ) (r : BtRow) : ℤ :=
  if r.entry ≠ 0 then r.entry
  else if r.dd ≠ 0 then r.dd
  else prev

/-- Modelled from the spec: the multiplier series under the spec's
stated precedence (previous value defaulting to 0 before any event). -/
def specMultList (prev : ℤ) : List BtRow → List ℤ
  | [] => []
  | r :: rs =>
      let p := specMultStep prev r
      p :: specMultList p rs

/-- Modelled from the spec: spec-ordered multiplier series from flat. -/
def specMult (rows : List BtRow) : List ℤ := specMultList 0 rows

/-- Shape facts satisfied by every row the engine hands to the equity
curve builder: the final signal is ternary, a nonzero entry value equals
the signal, the double-down value is 0 or ±2, and a double-down row has
a nonzero signal and no entry event. -/
def RowOk (r : BtRow) : Prop :=
  (r.signal = 0 ∨ r.signal = 1 ∨ r.signal = -1) ∧
  (r.signal ≠ 0 → r.entry = 0 ∨ r.entry = r.signal) ∧
  (r.dd = 0 ∨ r.dd = 2 ∨ r.dd = -2) ∧
  (r.dd ≠ 0 → r.signal ≠ 0 ∧ r.entry = 0)

/-- Example hourly context: one observation at time 0, oversold, with a
reference level of 1000 (so no reference-level exit fires). -/
def exH : List HourRow := [⟨0, Zone.oversold, 1000⟩]

/-- Example hourly context whose zone is neutral at time 0 and oversold
from time 1 on. -/
def exHN : List HourRow := [⟨0, Zone.neutral, 1000⟩, ⟨1, Zone.oversold, 1000⟩]

/-- Example intraday series: a long entry at Close 100 followed by two
bars more than 1% below it. -/
def exM1 : List M15Row := [⟨0, 100, 1, ""⟩, ⟨1, 98, 1, ""⟩, ⟨2, 97, 1, ""⟩]

/-- Example intraday series: a long entry at Close 100 followed by a bar
at Close 103, beyond the 2% profit target. -/
def exM2 : List M15Row := [⟨0, 100, 1, ""⟩, ⟨1, 103, 1, ""⟩]

/-- Example intraday series: a single bar opening a long position, which
is therefore still open at the end of the data. -/
def exM5 : List M15Row := [⟨0, 100, 1, "sig"⟩]

/-- Example intraday series: a raw long signal on two bars at constant
price (so the entry event falls on bar 0). -/
def exM7 : List M15Row := [⟨0, 100, 1, ""⟩, ⟨1, 100, 1, ""⟩]

/-- Example intraday series with an all-zero raw signal. -/
def exM0 : List M15Row := [⟨0, 100, 0, ""⟩]

/-- Example daily series (the engine never reads it). -/
def exD1 : List DailyRow := [⟨0, 1, 1⟩]

/-- Example backtest input with an all-zero signal and moving prices. -/
def exZ : List BtRow := [⟨100, 0, 0, 0⟩, ⟨50, 0, 0, 0⟩]

/-- Example backtest row whose signal is 0 while its entry-event value
is nonzero. -/
def exE : BtRow := ⟨100, 0, 1, 0⟩

theorem getD_range_map {α : Type} (f : ℕ → α) (d : α) {n t : ℕ} (ht : t < n) :
    ((List.range n).map f).getD t d = f t := by
  simp [List.getD_eq_getElem?_getD, List.getElem?_map, List.getElem?_range, ht]

theorem getD_of_len_le {α : Type} (l : List α) (d : α) {t : ℕ} (ht : l.length ≤ t) :
    l.getD t d = d := by
  simp [List.getD_eq_getElem?_getD, List.getElem?_eq_none, ht]

theorem map_getD_range {α β : Type} (l : List α) (d : α) (g : α → β) :
    (List.range l.length).map (fun t => g (l.getD t d)) = l.map g := by
  apply List.ext_get
  · simp
  · intro n h1 h2
    simp only [List.get_eq_getElem, List.getElem_map, List.getElem_range,
      List.getD_eq_getElem?_getD]
    rw [List.getElem?_eq_getElem (by simpa using h2)]
    rfl

theorem outAt_lt (m : List M15Row) (h : List HourRow) (d : List DailyRow)
    {t : ℕ} (ht : t < m.length) : outAt m h d t = mtfRow m h t :=
  getD_range_map _ _ ht

theorem sigAt_of_len_le {m : List M15Row} {t : ℕ} (ht : m.length ≤ t) :
    sigAt m t = 0 := by
  unfold sigAt
  rw [getD_of_len_le _ _ ht]
  rfl

theorem signal1_of_sig_zero {m : List M15Row} (h : List HourRow) {t : ℕ}
    (hs : sigAt m t = 0) : signal1 m h t = 0 := by
  unfold signal1
  split <;> simp [hs]

theorem validMask_of_signal1_zero {m : List M15Row} {h : List HourRow} {t : ℕ}
    (h1 : signal1 m h t = 0) : validMask m h t = false := by
  simp [validMask, h1]

theorem signal2_of_sig_zero {m : List M15Row} (h : List HourRow) {t : ℕ}
    (hs : sigAt m t = 0) : signal2 m h t = 0 := by
  unfold signal2
  rw [validMask_of_signal1_zero (signal1_of_sig_zero h hs)]
  simp

theorem signal1_of_exit {m : List M15Row} {h : List HourRow} {t : ℕ}
    (he : exitMask m h t = true) : signal1 m h t = 0 := by
  simp [signal1, he]

theorem exitMask_of_valid {m : List M15Row} {h : List HourRow} {t : ℕ}
    (hv : validMask m h t = true) : exitMask m h t = false := by
  by_contra hc
  have he : exitMask m h t = true := by
    cases hx : exitMask m h t
    · exact absurd hx hc
    · rfl
  rw [validMask_of_signal1_zero (signal1_of_exit he)] at hv
  exact Bool.false_ne_true hv

theorem signal2_cases (m : List M15Row) (h : List HourRow) (t : ℕ) :
    signal2 m h t = 0 ∨ signal2 m h t = 1 ∨ signal2 m h t = -1 := by
  unfold signal2
  cases hv : validMask m h t
  · simp
  · have := hv
    unfold validMask at this
    rcases Bool.or_eq_true_iff.mp this with hl | hr
    · right; left
      simpa using (Bool.and_eq_true_iff.mp hl).1
    · right; right
      simpa using (Bool.and_eq_true_iff.mp hr).1

theorem signal2_ne_zero {m : List M15Row} {h : List HourRow} {t : ℕ}
    (h2 : signal2 m h t ≠ 0) :
    validMask m h t = true ∧ exitMask m h t = false ∧ signal2 m h t = sigAt m t := by
  have hv : validMask m h t = true := by
    cases hx : validMask m h t
    · exact absurd (by simp [signal2, hx]) h2
    · rfl
  have he := exitMask_of_valid hv
  refine ⟨hv, he, ?_⟩
  simp [signal2, hv, signal1, he]

theorem positionList_length (prev : ℤ) (rows : List BtRow) :
    (positionList prev rows).length = rows.length := by
  induction rows generalizing prev with
  | nil => rfl
  | cons r rs ih => simp [positionList, ih]

theorem posList_getD_char (rows : List BtRow) (prev : ℤ) (t : ℕ) :
    (positionList prev rows).getD t 0 =
      if t < rows.length then
        posStep (if t = 0 then prev else (positionList prev rows).getD (t - 1) 0)
          (rows.getD t defBt)
      else 0 := by
  induction rows generalizing prev t with
  | nil =>
    rw [if_neg (by simp)]
    simp [positionList]
  | cons r rs ih =>
    cases t with
    | zero => simp [positionList]
    | succ n =>
      have hL : (positionList prev (r :: rs)).getD (n + 1) 0 =
          (positionList (posStep prev r) rs).getD n 0 := rfl
      rw [hL, ih]
      have hlen : (n + 1 < (r :: rs).length) = (n < rs.length) := by
        simp [Nat.succ_lt_succ_iff]
      cases n with
      | zero => simp [positionList]
      | succ k =>
        have h1 : (positionList prev (r :: rs)).getD (k + 1) 0 =
            (positionList (posStep prev r) rs).getD k 0 := rfl
        simp only [hlen]
        rw [show (k + 1 + 1 - 1) = k + 1 from rfl, show (k + 1 - 1) = k from rfl, h1]
        rfl

theorem posAt_of_len_le {rows : List BtRow} {t : ℕ} (ht : rows.length ≤ t) :
    posAt rows t = 0 := by
  unfold posAt position
  exact getD_of_len_le _ _ (by rw [positionList_length]; exact ht)

theorem sigB_of_len_le {rows : List BtRow} {t : ℕ} (ht : rows.length ≤ t) :
    sigB rows t = 0 := by
  unfold sigB
  rw [getD_of_len_le _ _ ht]
  rfl

theorem posAt_char (rows : List BtRow) (t : ℕ) :
    posAt rows t =
      if sigB rows t = 0 then 0
      else if entB rows t ≠ 0 then entB rows t
      else if ddB rows t ≠ 0 then ddB rows t
      else if t = 0 then 0 else posAt rows (t - 1) := by
  by_cases ht : t < rows.length
  · unfold posAt position
    rw [posList_getD_char, if_pos ht]
    rfl
  · push_neg at ht
    rw [posAt_of_len_le ht, if_pos (sigB_of_len_le ht)]

theorem equity_start (rows : List BtRow) (cap : ℚ) : equity rows cap 0 = cap := by
  simp [equity, stratRet, pctRet]

theorem equity_const_of_flat {rows : List BtRow} (hz : ∀ s, sigB rows s = 0)
    (cap : ℚ) : ∀ t, equity rows cap t = cap := by
  have hp : ∀ s, posAt rows s = 0 := fun s => by rw [posAt_char, if_pos (hz s)]
  intro t
  induction t with
  | zero => exact equity_start rows cap
  | succ n ih =>
    have hs : stratRet rows (n + 1) = 0 := by
      simp [stratRet, hp n]
    unfold equity
    rw [ih, hs]
    ring

theorem posStep_bound {prev : ℤ} {r : BtRow} (hr : RowOk r) (hlo : -2 ≤ prev)
    (hhi : prev ≤ 2) : -2 ≤ posStep prev r ∧ posStep prev r ≤ 2 := by
  obtain ⟨hsig, hent, hdd, _⟩ := hr
  unfold posStep
  split_ifs with h1 h2 h3
  · omega
  · rcases hent h1 with h | h
    · omega
    · rcases hsig with h' | h' | h' <;> omega
  · rcases hdd with h | h | h <;> omega
  · omega

theorem posStep_dd {prev : ℤ} {r : BtRow} (hr : RowOk r) (hd : r.dd ≠ 0) :
    posStep prev r = r.dd := by
  obtain ⟨_, _, _, himp⟩ := hr
  obtain ⟨hs, he⟩ := himp hd
  unfold posStep
  rw [if_neg hs, if_neg (by simp [he]), if_pos hd]

theorem posList_bound : ∀ rows : List BtRow, (∀ r ∈ rows, RowOk r) →
    ∀ (prev : ℤ) (t : ℕ), -2 ≤ prev → prev ≤ 2 →
      -2 ≤ (positionList prev rows).getD t 0 ∧
        (positionList prev rows).getD t 0 ≤ 2 := by
  intro rows
  induction rows with
  | nil =>
    intro _ prev t _ _
    unfold positionList
    rw [getD_of_len_le _ _ (Nat.zero_le t)]
    omega
  | cons r rs ih =>
    intro hok prev t hlo hhi
    have hr := hok r (List.mem_cons_self r rs)
    have hrs : ∀ x ∈ rs, RowOk x := fun x hx => hok x (List.mem_cons_of_mem r hx)
    obtain ⟨plo, phi⟩ := posStep_bound hr hlo hhi
    cases t with
    | zero => exact ⟨plo, phi⟩
    | succ n => exact ih hrs (posStep prev r) n plo phi

theorem doubleDown_of_sig2_zero {m : List M15Row} {h : List HourRow} {t : ℕ}
    (hs : signal2 m h t = 0) : doubleDown m h t = 0 := by
  simp [doubleDown, hs]

theorem entrySignal_of_len_le {m : List M15Row} {t : ℕ} (ht : m.length ≤ t) :
    entrySignal m t = 0 := by
  unfold entrySignal
  rw [if_neg]
  intro hc
  exact hc.2 (sigAt_of_len_le ht)

theorem pipeline_RowOk (m : List M15Row) (h : List HourRow) (t : ℕ) :
    RowOk ⟨closeAt m t, signal2 m h t, entrySignal m t, doubleDown m h t⟩ := by
  refine ⟨signal2_cases m h t, ?_, ?_, ?_⟩
  · intro hs
    obtain ⟨_, _, hsig⟩ := signal2_ne_zero hs
    unfold entrySignal
    split
    · right
      exact hsig.symm
    · left
      rfl
  · show doubleDown m h t = 0 ∨ doubleDown m h t = 2 ∨ doubleDown m h t = -2
    unfold doubleDown
    split_ifs <;> simp
  · intro hd
    show signal2 m h t ≠ 0 ∧ entrySignal m t = 0
    unfold doubleDown at hd
    split_ifs at hd with h1 h2
    · simp only [Bool.and_eq_true, decide_eq_true_eq] at h1
      refine ⟨?_, h1.2⟩
      rw [h1.1.1]
      norm_num
    · simp only [Bool.and_eq_true, decide_eq_true_eq] at h2
      refine ⟨?_, h2.2⟩
      rw [h2.1.1]
      norm_num
    · exact absurd rfl hd

theorem pipeline_len (m : List M15Row) (h : List HourRow) (d : List DailyRow) :
    ((multi_tf_filter m h d).map toBt).length = m.length := by
  simp [multi_tf_filter]

theorem btAt {m : List M15Row} (h : List HourRow) (d : List DailyRow) {t : ℕ}
    (ht : t < m.length) :
    ((multi_tf_filter m h d).map toBt).getD t defBt =
      ⟨closeAt m t, signal2 m h t, entrySignal m t, doubleDown m h t⟩ := by
  unfold multi_tf_filter
  rw [List.map_map]
  exact getD_range_map _ _ ht

theorem sigB_pipeline (m : List M15Row) (h : List HourRow) (d : List DailyRow)
    (t : ℕ) : sigB ((multi_tf_filter m h d).map toBt) t = signal2 m h t := by
  by_cases ht : t < m.length
  · unfold sigB
    rw [btAt h d ht]
  · push_neg at ht
    rw [sigB_of_len_le (by rw [pipeline_len]; exact ht)]
    exact (signal2_of_sig_zero h (sigAt_of_len_le ht)).symm

theorem entB_pipeline (m : List M15Row) (h : List HourRow) (d : List DailyRow)
    (t : ℕ) : entB ((multi_tf_filter m h d).map toBt) t = entrySignal m t := by
  by_cases ht : t < m.length
  · unfold entB
    rw [btAt h d ht]
  · push_neg at ht
    unfold entB
    rw [getD_of_len_le _ _ (by rw [pipeline_len]; exact ht)]
    exact (entrySignal_of_len_le ht).symm

theorem ddB_pipeline (m : List M15Row) (h : List HourRow) (d : List DailyRow)
    (t : ℕ) : ddB ((multi_tf_filter m h d).map toBt) t = doubleDown m h t := by
  by_cases ht : t < m.length
  · unfold ddB
    rw [btAt h d ht]
  · push_neg at ht
    unfold ddB
    rw [getD_of_len_le _ _ (by rw [pipeline_len]; exact ht)]
    exact (doubleDown_of_sig2_zero (signal2_of_sig_zero h (sigAt_of_len_le ht))).symm

theorem pipeline_ok (m : List M15Row) (h : List HourRow) (d : List DailyRow) :
    ∀ r ∈ (multi_tf_filter m h d).map toBt, RowOk r := by
  intro r hr
  simp only [multi_tf_filter, List.map_map, List.mem_map, List.mem_range] at hr
  obtain ⟨t, _, rfl⟩ := hr
  exact pipeline_RowOk m h t

theorem dd_long_guard (m : List M15Row) (h : List HourRow) (t : ℕ) :
    doubleDown m h t = 2 ↔ (signal2 m h t = 1 ∧ entrySignal m t = 0 ∧
      ∃ p, entryPrice m t = some p ∧ closeAt m t < p * (1 - 1 / 100)) := by
  unfold doubleDown
  cases hep : entryPrice m t with
  | none => simp
  | some p =>
    simp only [show (1 - 1 / 100 : ℚ) = 99 / 100 from by norm_num]
    split_ifs with hg1 hg2
    · simp only [Bool.and_eq_true, decide_eq_true_eq] at hg1
      exact iff_of_true rfl ⟨hg1.1.1, hg1.2, p, rfl, hg1.1.2⟩
    · simp only [Bool.and_eq_true, decide_eq_true_eq] at hg2
      apply iff_of_false (by norm_num)
      rintro ⟨hs, -, -⟩
      rw [hg2.1.1] at hs
      exact absurd hs (by norm_num)
    · apply iff_of_false (by norm_num)
      rintro ⟨hs, he, q, hq, hc⟩
      obtain rfl : p = q := by injection hq
      exact hg1 (by simp [hs, he, hc])

theorem dd_short_guard (m : List M15Row) (h : List HourRow) (t : ℕ) :
    doubleDown m h t = -2 ↔ (signal2 m h t = -1 ∧ entrySignal m t = 0 ∧
      ∃ p, entryPrice m t = some p ∧ closeAt m t > p * (1 + 1 / 100)) := by
  unfold doubleDown
  cases hep : entryPrice m t with
  | none => simp
  | some p =>
    simp only [show (1 + 1 / 100 : ℚ) = 101 / 100 from by norm_num]
    split_ifs with hg1 hg2
    · simp only [Bool.and_eq_true, decide_eq_true_eq] at hg1
      apply iff_of_false (by norm_num)
      rintro ⟨hs, -, -⟩
      rw [hg1.1.1] at hs
      exact absurd hs (by norm_num)
    · simp only [Bool.and_eq_true, decide_eq_true_eq] at hg2
      exact iff_of_true rfl ⟨hg2.1.1, hg2.2, p, rfl, hg2.1.2⟩
    · apply iff_of_false (by norm_num)
      rintro ⟨hs, he, q, hq, hc⟩
      obtain rfl : p = q := by injection hq
      refine hg2 ?_
      simp [hs, he, hc]

/-- C1: Scale-in is only partially as specified.  A scale-in event
(`doubleDown = ±2`) fires exactly when the position is open
(`signal2 = ±1`), the bar carries no entry event, and Close has moved
adversely more than 1% beyond the entry-price column — but the
entry-price column is the forward-filled Close of entry bars only: it
is never recomputed by a scale-in fill (third conjunct), so no size is
tracked and no running average is formed. -/
theorem C1_theorem (m : List M15Row) (h : List HourRow) (t : ℕ) :
    (doubleDown m h t = 2 ↔ (signal2 m h t = 1 ∧ entrySignal m t = 0 ∧
        ∃ p, entryPrice m t = some p ∧ closeAt m t < p * (1 - 1 / 100))) ∧
    (doubleDown m h t = -2 ↔ (signal2 m h t = -1 ∧ entrySignal m t = 0 ∧
        ∃ p, entryPrice m t = some p ∧ closeAt m t > p * (1 + 1 / 100))) ∧
    entryPrice m (t + 1) =
      (if entrySignal m (t + 1) ≠ 0 then some (closeAt m (t + 1))
       else entryPrice m t) :=
  ⟨dd_long_guard m h t, dd_short_guard m h t, rfl⟩

/-- C1 counterexample: on `exM1` a long opens at Close 100 (bar 0) and a
scale-in fires at bar 1 (Close 98, more than 1% adverse), yet the
entry-price column at bars 1 and 2 is still 100 — not the running
unit-weighted average `(100 * 1 + 98) / (1 + 1) = 99` the claim
prescribes, so the entry-price column does not change after a scale-in
fill. -/
theorem C1_counterexample :
    doubleDown exM1 exH 1 = 2 ∧ signal2 exM1 exH 1 = 1 ∧
    entryPrice exM1 1 = some 100 ∧ entryPrice exM1 2 = some 100 ∧
    ((100 : ℚ) ≠ (100 * 1 + 98) / (1 + 1)) := by
  refine ⟨?_, ?_, ?_, ?_, by norm_num⟩
  · norm_num [doubleDown, signal2, signal1, validMask, exitMask, entryPrice,
      entrySignal, prevSig, asofZone, asofSma, sigAt, closeAt, timeAt, reasonAt,
      exM1, exH, List.getD]
  · norm_num [signal2, signal1, validMask, exitMask, entryPrice,
      entrySignal, prevSig, asofZone, asofSma, sigAt, closeAt, timeAt, reasonAt,
      exM1, exH, List.getD]
  · norm_num [entryPrice, entrySignal, sigAt, closeAt, exM1, List.getD]
  · norm_num [entryPrice, entrySignal, sigAt, closeAt, exM1, List.getD]

/-- C2: Exit detection, amended.  The exit mask holds exactly when the
previous bar's signal marks an open long and Close is at or above the
aligned hourly reference or 2% above the entry price (symmetrically for
shorts) — the price reference being the forward-filled entry-bar Close,
not a running average — and on an exit bar the final signal is 0, the
exit reason is written at the exit step but then cleared to the empty
string by the zone-validity step, so no reason tag survives to the final
output. -/
theorem C2_theorem (m : List M15Row) (h : List HourRow) (t : ℕ) :
    (exitMask m h t = true ↔
      ((prevSig m t = some 1 ∧
         ((∃ r, asofSma h (timeAt m t) = some r ∧ closeAt m t ≥ r) ∨
          (∃ p, entryPrice m t = some p ∧ closeAt m t ≥ p * (1 + 2 / 100)))) ∨
       (prevSig m t = some (-1) ∧
         ((∃ r, asofSma h (timeAt m t) = some r ∧ closeAt m t ≤ r) ∨
          (∃ p, entryPrice m t = some p ∧
            closeAt m t ≤ p * (1 - 2 / 100)))))) ∧
    (exitMask m h t = true →
      signal2 m h t = 0 ∧ reason1 m h t = exitReasonStr ∧
        reason2 m h t = "") := by
  have e1 : (1 + 2 / 100 : ℚ) = 102 / 100 := by norm_num
  have e2 : (1 - 2 / 100 : ℚ) = 98 / 100 := by norm_num
  constructor
  · unfold exitMask
    simp only [e1, e2]
    cases href : asofSma h (timeAt m t) <;> cases hep : entryPrice m t <;> simp
  · intro he
    have h1 := signal1_of_exit he
    have hv := validMask_of_signal1_zero h1
    exact ⟨by simp [signal2, hv], by simp [reason1, he], by simp [reason2, hv]⟩

/-- C2 witness: on `exM2` (long entered at 100, next Close 103 ≥ 102)
the exit fires at bar 1, the final signal there is 0, and the reason is
written then cleared. -/
theorem C2_witness :
    signal2 exM2 exH 1 = 0 ∧ reason1 exM2 exH 1 = exitReasonStr ∧
      reason2 exM2 exH 1 = "" :=
  (C2_theorem exM2 exH 1).2 (by
    norm_num [exitMask, entryPrice, entrySignal, prevSig, asofSma, sigAt,
      closeAt, timeAt, exM2, exH, List.getD])

/-- C2 counterexample: on `exM2` the profit-target exit fires at bar 1
and the signal is forced to 0, but the reason attached to that bar in
the final output is the empty string, not an exit tag — the claim's
"reason tag is attached to that bar in the final output" fails because
the context-validity step clears the reason of every bar whose signal is
0. -/
theorem C2_counterexample :
    exitMask exM2 exH 1 = true ∧ (outAt exM2 exH [] 1).signal = 0 ∧
    (outAt exM2 exH [] 1).reason = "" ∧ ("" : String) ≠ exitReasonStr := by
  rw [outAt_lt exM2 exH [] (by norm_num [exM2])]
  refine ⟨?_, ?_, ?_, by simp [exitReasonStr]⟩
  · norm_num [exitMask, entryPrice, entrySignal, prevSig, asofSma, sigAt,
      closeAt, timeAt, exM2, exH, List.getD]
  · show signal2 exM2 exH 1 = 0
    norm_num [signal2, signal1, validMask, exitMask, entryPrice, entrySignal,
      prevSig, asofZone, asofSma, sigAt, closeAt, timeAt, exM2, exH, List.getD]
  · show reason2 exM2 exH 1 = ""
    norm_num [reason2, reason1, signal1, validMask, exitMask, entryPrice,
      entrySignal, prevSig, asofZone, asofSma, sigAt, closeAt, timeAt,
      reasonAt, exM2, exH, List.getD]

/-- C3: Equity curve builder, amended.  The builder's position scan
tests the raw signal first: the multiplier is 0 whenever the bar's
signal is 0 (even if an entry or scale-in value is present), else the
entry value if nonzero, else the scale-in value if nonzero, else the
previous multiplier.  Price return, strategy return, and the compounded
equity recursion are as claimed, and an all-zero signal series yields a
constant curve at the initial capital. -/
theorem C3_theorem (rows : List BtRow) (cap : ℚ) (t : ℕ) :
    (posAt rows t =
       if sigB rows t = 0 then 0
       else if entB rows t ≠ 0 then entB rows t
       else if ddB rows t ≠ 0 then ddB rows t
       else if t = 0 then 0 else posAt rows (t - 1)) ∧
    pctRet rows 0 = 0 ∧
    (t ≠ 0 → pctRet rows t = closeB rows t / closeB rows (t - 1) - 1) ∧
    stratRet rows t =
      pctRet rows t * (if t = 0 then 0 else (posAt rows (t - 1) : ℚ)) ∧
    equity rows cap 0 = cap ∧
    (t ≠ 0 → equity rows cap t = equity rows cap (t - 1) * (1 + stratRet rows t)) ∧
    ((∀ s, sigB rows s = 0) → equity rows cap t = cap) := by
  refine ⟨posAt_char rows t, rfl, ?_, rfl, equity_start rows cap, ?_,
    fun hz => equity_const_of_flat hz cap t⟩
  · intro ht
    cases t with
    | zero => exact absurd rfl ht
    | succ n => rfl
  · intro ht
    cases t with
    | zero => exact absurd rfl ht
    | succ n => rfl

/-- C3 witness: on a two-bar all-zero-signal series with Close falling
from 100 to 50, the bar-1 return is `50/100 - 1` and the equity stays at
the initial capital 1000. -/
theorem C3_witness :
    pctRet exZ 1 = closeB exZ 1 / closeB exZ 0 - 1 ∧
      equity exZ 1000 1 = 1000 := by
  have hz : ∀ s, sigB exZ s = 0 := fun s => by
    match s with
    | 0 => rfl
    | 1 => rfl
    | n + 2 => rfl
  have h3 := C3_theorem exZ 1000 1
  exact ⟨h3.2.2.1 (by norm_num), h3.2.2.2.2.2.2 hz⟩

/-- C3 counterexample: on the single-row series `[exE]` (signal 0 but
entry value 1) the builder's multiplier is 0, while the claim's stated
precedence — entry first — yields 1: the `signal == 0` test comes first
in the code, not last. -/
theorem C3_counterexample :
    position [exE] = [0] ∧ specMult [exE] = [1] ∧
      position [exE] ≠ specMult [exE] := by
  refine ⟨?_, ?_, ?_⟩ <;>
    norm_num [position, positionList, posStep, specMult, specMultList,
      specMultStep, exE]

/-- C4: Context validity filter, confirmed.  A nonzero final signal
implies the forward-filled hourly zone matches its direction; every bar
failing the validity mask has signal 0 and an empty reason; and the
engine's output does not depend on the daily frame at all. -/
theorem C4_theorem (m : List M15Row) (h : List HourRow)
    (d d' : List DailyRow) (t : ℕ) :
    (signal2 m h t = 1 → asofZone h (timeAt m t) = some Zone.oversold) ∧
    (signal2 m h t = -1 → asofZone h (timeAt m t) = some Zone.overbought) ∧
    (validMask m h t = false → signal2 m h t = 0 ∧ reason2 m h t = "") ∧
    multi_tf_filter m h d = multi_tf_filter m h d' := by
  refine ⟨?_, ?_, fun hv => ⟨by simp [signal2, hv], by simp [reason2, hv]⟩, rfl⟩
  · intro hs
    obtain ⟨hv, -, -⟩ := signal2_ne_zero (by rw [hs]; norm_num)
    have h1 : signal1 m h t = 1 := by simpa [signal2, hv] using hs
    unfold validMask at hv
    rcases Bool.or_eq_true_iff.mp hv with hl | hr
    · simpa using (Bool.and_eq_true_iff.mp hl).2
    · have hcon := (Bool.and_eq_true_iff.mp hr).1
      simp only [decide_eq_true_eq] at hcon
      rw [h1] at hcon
      exact absurd hcon (by norm_num)
  · intro hs
    obtain ⟨hv, -, -⟩ := signal2_ne_zero (by rw [hs]; norm_num)
    have h1 : signal1 m h t = -1 := by simpa [signal2, hv] using hs
    unfold validMask at hv
    rcases Bool.or_eq_true_iff.mp hv with hl | hr
    · have hcon := (Bool.and_eq_true_iff.mp hl).1
      simp only [decide_eq_true_eq] at hcon
      rw [h1] at hcon
      exact absurd hcon (by norm_num)
    · simpa using (Bool.and_eq_true_iff.mp hr).2

/-- C4 witness: on `exM1` the surviving long at bar 0 indeed sits on an
oversold-aligned bar; an out-of-range bar fails the mask and yields
signal 0 with empty reason; and swapping the daily frame changes
nothing. -/
theorem C4_witness :
    asofZone exH (timeAt exM1 0) = some Zone.oversold ∧
    (signal2 exM1 exH 5 = 0 ∧ reason2 exM1 exH 5 = "") ∧
    multi_tf_filter exM1 exH [] = multi_tf_filter exM1 exH exD1 := by
  refine ⟨(C4_theorem exM1 exH [] exD1 0).1 ?_,
    (C4_theorem exM1 exH [] exD1 5).2.2.1 ?_,
    (C4_theorem exM1 exH [] exD1 0).2.2.2⟩
  · norm_num [signal2, signal1, validMask, exitMask, entryPrice, entrySignal,
      prevSig, asofZone, asofSma, sigAt, closeAt, timeAt, exM1, exH,
      List.getD] <;> decide
  · exact validMask_of_signal1_zero
      (signal1_of_sig_zero exH (sigAt_of_len_le (by norm_num [exM1])))

/-- C5: End-of-data closure, amended.  The engine performs no
end-of-data closure at all: every output bar's reason — the last bar
included — is either the empty string or the bar's own input reason, so
no synthetic forced-close tag is ever emitted. -/
theorem C5_theorem (m : List M15Row) (h : List HourRow) (t : ℕ) :
    reason2 m h t = "" ∨ reason2 m h t = reasonAt m t := by
  unfold reason2
  cases hv : validMask m h t
  · simp
  · right
    simp [reason1, exitMask_of_valid hv]

/-- C5 counterexample: on `exM5` a long position is open on the final
bar (signal 1), yet the reason attached to that bar is the input's own
reason string, not `"forced-close-at-data-end"` — no synthetic exit
event is emitted at the end of the data. -/
theorem C5_counterexample :
    exM5.length = 1 ∧ (outAt exM5 exH [] 0).signal = 1 ∧
    (outAt exM5 exH [] 0).reason = "sig" ∧
    ("sig" : String) ≠ "forced-close-at-data-end" := by
  rw [outAt_lt exM5 exH [] (by norm_num [exM5])]
  refine ⟨rfl, ?_, ?_, by simp⟩
  · show signal2 exM5 exH 0 = 1
    norm_num [signal2, signal1, validMask, exitMask, entryPrice, entrySignal,
      prevSig, asofZone, asofSma, sigAt, closeAt, timeAt, exM5, exH,
      List.getD] <;> decide
  · show reason2 exM5 exH 0 = "sig"
    norm_num [reason2, reason1, signal1, validMask, exitMask, entryPrice,
      entrySignal, prevSig, asofZone, asofSma, sigAt, closeAt, timeAt,
      reasonAt, exM5, exH, List.getD] <;> decide

/-- C6: Trend classifier, amended.  The label at every in-range bar —
the first `w - 1` bars included — is Up (+1) exactly when Close exceeds
the rolling mean and Down (−1) otherwise (ties Down): the rolling mean
uses `min_periods=1`, so the initial bars carry a defined label computed
from the partial-window mean rather than an undefined label; from bar
`w - 1` on the mean is the full `w`-bar average. -/
theorem C6_theorem (closes : List ℚ) (w t : ℕ) (ht : t < closes.length) :
    ((trend_analyze closes w).getD t 0 =
        if closes.getD t 0 > smaAt closes w t then 1 else -1) ∧
    (closes.getD t 0 = smaAt closes w t →
        (trend_analyze closes w).getD t 0 = -1) ∧
    (w ≤ t + 1 → smaAt closes w t =
        ((closes.take (t + 1)).drop (t + 1 - w)).sum / (w : ℚ)) := by
  have h1 : (trend_analyze closes w).getD t 0 = trendAt closes w t := by
    unfold trend_analyze
    exact getD_range_map _ _ ht
  refine ⟨h1, ?_, ?_⟩
  · intro hq
    rw [h1]
    unfold trendAt
    rw [if_neg (by rw [hq]; exact lt_irrefl _)]
  · intro hw
    have hlen : ((closes.take (t + 1)).drop (t + 1 - w)).length = w := by
      rw [List.length_drop, List.length_take, Nat.min_eq_left (by omega)]
      omega
    simp only [smaAt, hlen]

/-- C6 witness: with window 2 on the constant series `[100, 100]`, bar 1
ties with its mean and is labelled Down, and its mean is the full
2-bar average. -/
theorem C6_witness :
    (trend_analyze [100, 100] 2).getD 1 0 = -1 ∧
    smaAt [100, 100] 2 1 =
      ((([100, 100] : List ℚ).take 2).drop 0).sum / (2 : ℚ) := by
  have h6 := C6_theorem [100, 100] 2 1 (by norm_num)
  exact ⟨h6.2.1 (by norm_num [smaAt, List.getD]), h6.2.2 (by norm_num)⟩

/-- C6 counterexample: with window 100 on the two-bar series
`[1, 100]`, both bars lie in the warm-up region (bar index < 99), yet
the classifier labels bar 0 Down and bar 1 Up — the warm-up bars carry
defined labels (computed with `min_periods=1`), not an undefined label,
contradicting the claim that the initial `w-1` bars are undefined. -/
theorem C6_counterexample :
    trend_analyze [1, 100] 100 = [-1, 1] ∧ (1 : ℕ) < 100 - 1 := by
  refine ⟨?_, by norm_num⟩
  norm_num [trend_analyze, trendAt, smaAt, List.range_succ, List.getD]

/-- C7: Position-series invariant, amended.  The final signal is a
single ternary value per bar (never simultaneously long and short), and
a flat bar (signal 0) always carries position size 0 — but the converse
direction of the claim fails: a bar can keep a nonzero final signal
while the scanned size is 0. -/
theorem C7_theorem (m : List M15Row) (h : List HourRow) (d : List DailyRow)
    (t : ℕ) :
    (signal2 m h t = 0 ∨ signal2 m h t = 1 ∨ signal2 m h t = -1) ∧
    (sigB ((multi_tf_filter m h d).map toBt) t = 0 →
      posAt ((multi_tf_filter m h d).map toBt) t = 0) := by
  refine ⟨signal2_cases m h t, fun hs => ?_⟩
  rw [posAt_char, if_pos hs]

/-- C7 witness: on `exM7`/`exHN` bar 0 is filtered flat and its position
size is 0. -/
theorem C7_witness :
    posAt ((multi_tf_filter exM7 exHN []).map toBt) 0 = 0 := by
  refine (C7_theorem exM7 exHN [] 0).2 ?_
  rw [sigB_pipeline]
  norm_num [signal2, signal1, validMask, exitMask, entryPrice, entrySignal,
    prevSig, asofZone, asofSma, sigAt, closeAt, timeAt, exM7, exHN,
    List.getD] <;> decide

/-- C7 counterexample: on `exM7`/`exHN` (zone neutral on the entry bar,
oversold after), the final signal at bar 1 is 1 yet the scanned position
size at bar 1 is 0 — a bar with nonzero final signal and zero size, so
"size is 0 exactly when the final signal is Flat" fails. -/
theorem C7_counterexample :
    (outAt exM7 exHN [] 1).signal = 1 ∧
    posAt ((multi_tf_filter exM7 exHN []).map toBt) 1 = 0 := by
  have hs0 : signal2 exM7 exHN 0 = 0 := by
    norm_num [signal2, signal1, validMask, exitMask, entryPrice, entrySignal,
      prevSig, asofZone, asofSma, sigAt, closeAt, timeAt, exM7, exHN,
      List.getD] <;> decide
  have hs1 : signal2 exM7 exHN 1 = 1 := by
    norm_num [signal2, signal1, validMask, exitMask, entryPrice, entrySignal,
      prevSig, asofZone, asofSma, sigAt, closeAt, timeAt, exM7, exHN,
      List.getD] <;> decide
  have he1 : entrySignal exM7 1 = 0 := by
    norm_num [entrySignal, sigAt, exM7, List.getD]
  have hd1 : doubleDown exM7 exHN 1 = 0 := by
    norm_num [doubleDown, signal2, signal1, validMask, exitMask, entryPrice,
      entrySignal, prevSig, asofZone, asofSma, sigAt, closeAt, timeAt, exM7,
      exHN, List.getD]
  have h0 : posAt ((multi_tf_filter exM7 exHN []).map toBt) 0 = 0 := by
    rw [posAt_char, if_pos (by rw [sigB_pipeline]; exact hs0)]
  constructor
  · rw [outAt_lt exM7 exHN [] (by norm_num [exM7])]
    exact hs1
  · rw [posAt_char, sigB_pipeline, entB_pipeline, ddB_pipeline, hs1, he1, hd1]
    simpa using h0

/-- C9: Input mutation, amended.  The equity curve builder works on a
sorted copy and leaves the caller's rows untouched, and the engine
leaves the timestamp and Close columns of the caller's intraday frame
unchanged — but (counterexample) it overwrites the signal and reason
columns of that same frame in place. -/
theorem C9_theorem (m : List M15Row) (h : List HourRow) (d : List DailyRow)
    (rows : List BtRow) :
    backtest_input_after rows = rows ∧
    (m15_after_filter m h d).map (fun r => r.time) = m.map (fun r => r.time) ∧
    (m15_after_filter m h d).map (fun r => r.close) =
      m.map (fun r => r.close) := by
  refine ⟨rfl, ?_, ?_⟩
  · unfold m15_after_filter multi_tf_filter
    rw [List.map_map, ← map_getD_range m defM15 (fun r => r.time)]
    rfl
  · unfold m15_after_filter multi_tf_filter
    rw [List.map_map, ← map_getD_range m defM15 (fun r => r.close)]
    rfl

/-- C9 counterexample: after the engine call on `exM2`, the caller's
frame (which the source mutates and returns) holds signal 0 at bar 1
where the input had signal 1 — the engine does mutate its intraday
input in place. -/
theorem C9_counterexample :
    ((m15_after_filter exM2 exH []).getD 1 defOut).signal ≠
      (exM2.getD 1 defM15).signal := by
  rw [show (m15_after_filter exM2 exH []).getD 1 defOut = mtfRow exM2 exH 1
      from outAt_lt exM2 exH [] (by norm_num [exM2])]
  show signal2 exM2 exH 1 ≠ sigAt exM2 1
  have hs : signal2 exM2 exH 1 = 0 := by
    norm_num [signal2, signal1, validMask, exitMask, entryPrice, entrySignal,
      prevSig, asofZone, asofSma, sigAt, closeAt, timeAt, exM2, exH, List.getD]
  rw [hs]
  norm_num [sigAt, exM2, List.getD]

/-- C10: Bounded exposure, confirmed.  For the composed pipeline the
effective multiplier always lies in `[-2, 2]`, and on any scale-in bar
(consecutive ones included) the multiplier equals the double-down value,
which is exactly `±2` — scale-ins hold the multiplier at two units, they
never accumulate beyond it. -/
theorem C10_theorem (m : List M15Row) (h : List HourRow) (d : List DailyRow)
    (t : ℕ) :
    (-2 ≤ posAt ((multi_tf_filter m h d).map toBt) t ∧
       posAt ((multi_tf_filter m h d).map toBt) t ≤ 2) ∧
    (ddB ((multi_tf_filter m h d).map toBt) t ≠ 0 →
       posAt ((multi_tf_filter m h d).map toBt) t =
         ddB ((multi_tf_filter m h d).map toBt) t ∧
       (ddB ((multi_tf_filter m h d).map toBt) t = 2 ∨
         ddB ((multi_tf_filter m h d).map toBt) t = -2)) := by
  constructor
  · exact posList_bound _ (pipeline_ok m h d) 0 t (by norm_num) (by norm_num)
  · intro hd
    have hdd : doubleDown m h t ≠ 0 := by rwa [ddB_pipeline] at hd
    obtain ⟨hs, he⟩ := (pipeline_RowOk m h t).2.2.2 hdd
    constructor
    · rw [posAt_char, if_neg (by rw [sigB_pipeline]; exact hs),
        if_neg (by rw [entB_pipeline]; exact not_not_intro he), if_pos hd]
    · rcases (pipeline_RowOk m h t).2.2.1 with h0 | h2 | h2
      · exact absurd h0 hdd
      · left
        rw [ddB_pipeline]
        exact h2
      · right
        rw [ddB_pipeline]
        exact h2

/-- C10 witness: on `exM1` the scale-in at bar 1 yields multiplier 2
with the double-down value 2, within bounds. -/
theorem C10_witness :
    (-2 ≤ posAt ((multi_tf_filter exM1 exH []).map toBt) 1 ∧
       posAt ((multi_tf_filter exM1 exH []).map toBt) 1 ≤ 2) ∧
    (posAt ((multi_tf_filter exM1 exH []).map toBt) 1 =
       ddB ((multi_tf_filter exM1 exH []).map toBt) 1 ∧
     (ddB ((multi_tf_filter exM1 exH []).map toBt) 1 = 2 ∨
       ddB ((multi_tf_filter exM1 exH []).map toBt) 1 = -2)) := by
  have h10 := C10_theorem exM1 exH [] 1
  refine ⟨h10.1, h10.2 ?_⟩
  rw [ddB_pipeline]
  norm_num [doubleDown, signal2, signal1, validMask, exitMask, entryPrice,
    entrySignal, prevSig, asofZone, asofSma, sigAt, closeAt, timeAt, exM1,
    exH, List.getD]

theorem reinput_len (m : List M15Row) (h : List HourRow) (d : List DailyRow) :
    ((multi_tf_filter m h d).map toInput).length = m.length := by
  simp [multi_tf_filter]

theorem reinput_getD_lt (m : List M15Row) (h : List HourRow)
    (d : List DailyRow) {t : ℕ} (ht : t < m.length) :
    ((multi_tf_filter m h d).map toInput).getD t defM15 =
      toInput (mtfRow m h t) := by
  unfold multi_tf_filter
  rw [List.map_map]
  exact getD_range_map _ _ ht

theorem timeAt_reinput (m : List M15Row) (h : List HourRow) (d : List DailyRow)
    (t : ℕ) : timeAt ((multi_tf_filter m h d).map toInput) t = timeAt m t := by
  by_cases ht : t < m.length
  · unfold timeAt
    rw [reinput_getD_lt m h d ht]
    rfl
  · push_neg at ht
    unfold timeAt
    rw [getD_of_len_le _ _ (by rw [reinput_len]; exact ht),
      getD_of_len_le _ _ ht]

theorem closeAt_reinput (m : List M15Row) (h : List HourRow)
    (d : List DailyRow) (t : ℕ) :
    closeAt ((multi_tf_filter m h d).map toInput) t = closeAt m t := by
  by_cases ht : t < m.length
  · unfold closeAt
    rw [reinput_getD_lt m h d ht]
    rfl
  · push_neg at ht
    unfold closeAt
    rw [getD_of_len_le _ _ (by rw [reinput_len]; exact ht),
      getD_of_len_le _ _ ht]

theorem sigAt_reinput (m : List M15Row) (h : List HourRow) (d : List DailyRow)
    (t : ℕ) :
    sigAt ((multi_tf_filter m h d).map toInput) t = signal2 m h t := by
  by_cases ht : t < m.length
  · unfold sigAt
    rw [reinput_getD_lt m h d ht]
    rfl
  · push_neg at ht
    unfold sigAt
    rw [getD_of_len_le _ _ (by rw [reinput_len]; exact ht)]
    exact (signal2_of_sig_zero h (sigAt_of_len_le ht)).symm

theorem reason2_of_sig_zero {m : List M15Row} (h : List HourRow) {t : ℕ}
    (hs : sigAt m t = 0) : reason2 m h t = "" := by
  unfold reason2
  rw [validMask_of_signal1_zero (signal1_of_sig_zero h hs)]
  simp

theorem reasonAt_reinput (m : List M15Row) (h : List HourRow)
    (d : List DailyRow) (t : ℕ) :
    reasonAt ((multi_tf_filter m h d).map toInput) t = reason2 m h t := by
  by_cases ht : t < m.length
  · unfold reasonAt
    rw [reinput_getD_lt m h d ht]
    rfl
  · push_neg at ht
    unfold reasonAt
    rw [getD_of_len_le _ _ (by rw [reinput_len]; exact ht)]
    exact (reason2_of_sig_zero h (sigAt_of_len_le ht)).symm

theorem entrySignal_congr (m1 m2 : List M15Row)
    (hs : ∀ t, sigAt m1 t = sigAt m2 t) (t : ℕ) :
    entrySignal m1 t = entrySignal m2 t := by
  unfold entrySignal
  rw [hs (t - 1), hs t]

theorem entryPrice_congr (m1 m2 : List M15Row)
    (hs : ∀ t, sigAt m1 t = sigAt m2 t)
    (hc : ∀ t, closeAt m1 t = closeAt m2 t) :
    ∀ t, entryPrice m1 t = entryPrice m2 t := by
  intro t
  induction t with
  | zero =>
    unfold entryPrice
    rw [entrySignal_congr m1 m2 hs 0, hc 0]
  | succ n ih =>
    unfold entryPrice
    rw [entrySignal_congr m1 m2 hs (n + 1), hc (n + 1), ih]

theorem exitMask_congr (m1 m2 : List M15Row) (h : List HourRow)
    (hs : ∀ t, sigAt m1 t = sigAt m2 t)
    (hc : ∀ t, closeAt m1 t = closeAt m2 t)
    (htm : ∀ t, timeAt m1 t = timeAt m2 t) (t : ℕ) :
    exitMask m1 h t = exitMask m2 h t := by
  unfold exitMask prevSig
  rw [hc t, htm t, entryPrice_congr m1 m2 hs hc t, hs (t - 1)]

/-- C8: Idempotence, amended.  The engine is idempotent only on inputs
it leaves alone: if the filtered output signal equals the raw input
signal at every bar, then re-running the engine on its own output
(fed back in as the new raw signal) reproduces the output exactly.  The
counterexample shows this fails as soon as the first pass changes any
signal. -/
theorem C8_theorem (m : List M15Row) (h : List HourRow) (d : List DailyRow)
    (hfix : ∀ t, signal2 m h t = sigAt m t) :
    multi_tf_filter ((multi_tf_filter m h d).map toInput) h d =
      multi_tf_filter m h d := by
  set mr := (multi_tf_filter m h d).map toInput with hmr
  have hs : ∀ t, sigAt mr t = sigAt m t := fun t =>
    (sigAt_reinput m h d t).trans (hfix t)
  have hc : ∀ t, closeAt mr t = closeAt m t := closeAt_reinput m h d
  have htm : ∀ t, timeAt mr t = timeAt m t := timeAt_reinput m h d
  have hrs : ∀ t, reasonAt mr t = reason2 m h t := reasonAt_reinput m h d
  have hlen : mr.length = m.length := reinput_len m h d
  have hent : ∀ t, entrySignal mr t = entrySignal m t :=
    entrySignal_congr mr m hs
  have hep : ∀ t, entryPrice mr t = entryPrice m t :=
    entryPrice_congr mr m hs hc
  have hex : ∀ t, exitMask mr h t = exitMask m h t :=
    exitMask_congr mr m h hs hc htm
  have h1 : ∀ t, signal1 mr h t = signal1 m h t := fun t => by
    unfold signal1
    rw [hex t, hs t]
  have hv : ∀ t, validMask mr h t = validMask m h t := fun t => by
    unfold validMask
    rw [h1 t, htm t]
  have h2 : ∀ t, signal2 mr h t = signal2 m h t := fun t => by
    unfold signal2
    rw [hv t, h1 t]
  have hr2 : ∀ t, reason2 mr h t = reason2 m h t := fun t => by
    unfold reason2
    rw [hv t]
    cases hvt : validMask m h t with
    | false => rfl
    | true =>
      unfold reason1
      rw [hex t, exitMask_of_valid hvt, hrs t]
      simp [reason2, hvt, reason1, exitMask_of_valid hvt]
  have hdd : ∀ t, doubleDown mr h t = doubleDown m h t := fun t => by
    unfold doubleDown
    rw [h2 t, hep t, hc t, hent t]
  have hrow : ∀ t, mtfRow mr h t = mtfRow m h t := fun t => by
    unfold mtfRow
    rw [htm t, hc t, h2 t, hr2 t, hent t, hep t, hdd t]
  show multi_tf_filter mr h d = multi_tf_filter m h d
  unfold multi_tf_filter
  rw [hlen]
  exact List.map_congr_left fun t _ => hrow t

/-- C8 witness: on an all-flat input the first pass leaves the signal
unchanged, and re-running the engine on its own output reproduces the
output. -/
theorem C8_witness :
    multi_tf_filter ((multi_tf_filter exM0 exH []).map toInput) exH [] =
      multi_tf_filter exM0 exH [] := by
  apply C8_theorem
  intro t
  have hz : sigAt exM0 t = 0 := by
    match t with
    | 0 => rfl
    | n + 1 => rfl
  rw [signal2_of_sig_zero exH hz, hz]

/-- C8 counterexample: on `exM7`/`exHN` the first pass filters the entry
bar out (signal becomes 0 at bar 0), so the second pass sees the signal
change at bar 1 and emits a different entry-event column — re-running
the engine on its own output does not reproduce the output. -/
theorem C8_counterexample :
    multi_tf_filter ((multi_tf_filter exM7 exHN []).map toInput) exHN [] ≠
      multi_tf_filter exM7 exHN [] := by
  intro hc
  have hlen0 : (0 : ℕ) < ((multi_tf_filter exM7 exHN []).map toInput).length := by
    rw [reinput_len]
    norm_num [exM7]
  have hgl : (multi_tf_filter ((multi_tf_filter exM7 exHN []).map toInput)
      exHN []).getD 0 defOut =
      mtfRow ((multi_tf_filter exM7 exHN []).map toInput) exHN 0 :=
    outAt_lt _ exHN [] hlen0
  have hgr : (multi_tf_filter exM7 exHN []).getD 0 defOut =
      mtfRow exM7 exHN 0 :=
    outAt_lt exM7 exHN [] (by norm_num [exM7])
  have heq := congrArg (fun l => (l.getD 0 defOut).entrySignal) hc
  simp only at heq
  rw [hgl, hgr] at heq
  have hs0 : sigAt ((multi_tf_filter exM7 exHN []).map toInput) 0 = 0 := by
    rw [sigAt_reinput]
    norm_num [signal2, signal1, validMask, exitMask, entryPrice, entrySignal,
      prevSig, asofZone, asofSma, sigAt, closeAt, timeAt, exM7, exHN,
      List.getD] <;> decide
  have hL : entrySignal ((multi_tf_filter exM7 exHN []).map toInput) 0 = 0 := by
    unfold entrySignal
    rw [hs0]
    simp
  have hR : entrySignal exM7 0 = 1 := by
    norm_num [entrySignal, sigAt, exM7, List.getD]
  rw [show (mtfRow ((multi_tf_filter exM7 exHN []).map toInput) exHN
        0).entrySignal =
      entrySignal ((multi_tf_filter exM7 exHN []).map toInput) 0 from rfl,
    show (mtfRow exM7 exHN 0).entrySignal = entrySignal exM7 0 from rfl,
    hL, hR] at heq
  exact absurd heq (by norm_num)

end TaLearning
